import Mathlib

/-!
# Verification of the LoRaWan-E5-Node Modbus RTU relay driver

Shallow embedding of the Modbus RTU master driver found in
`Projects/Applications/LoRaWAN/LoRaWAN_End_Node/Core/Src/modbus.c` and
`.../Core/Src/rs485.c`, together with proofs of the specified properties.

Bytes are modelled as `Nat` (with `% 256` where the C code masks), 16-bit
CRC registers as `Nat` (all intermediate values stay below `2 ^ 16`), and
byte buffers as `List Nat`.  The blocking transport exchange
`RS485_TransmitReceive` is modelled as an environment function giving, for
each attempt index, the RS485 status and the list of received bytes.
-/

namespace LoRaWanE5

/-! ## Constants (modbus.h / rs485.h / modbus.c) -/

def MODBUS_SLAVE_ADDR : Nat := 0x01
def MODBUS_FC_READ_COILS : Nat := 0x01
def MODBUS_FC_WRITE_COIL : Nat := 0x05
def MODBUS_RELAY_COUNT : Nat := 8
def MODBUS_RETRY_COUNT : Nat := 3
def MODBUS_RETRY_DELAY_MS : Nat := 50
def RS485_RX_BUFFER_SIZE : Nat := 256

/-- Size of the local `uint8_t rxBuffer[8]` array that `Modbus_WriteCoil` and
`Modbus_ReadCoils` (modbus.c) pass to `RS485_TransmitReceive` as the receive
buffer. -/
def modbusRxBufferSize : Nat := 8

/-- Status values of `Modbus_Status_t` (modbus.h). -/
inductive Modbus_Status_t
  | MODBUS_OK
  | MODBUS_ERROR_CRC
  | MODBUS_ERROR_TIMEOUT
  | MODBUS_ERROR_RESPONSE
  | MODBUS_ERROR_INVALID_PARAM
deriving DecidableEq, Repr

/-- Status values of `RS485_Status_t` (rs485.h). -/
inductive RS485_Status_t
  | RS485_OK
  | RS485_ERROR_TIMEOUT
  | RS485_ERROR_TX
  | RS485_ERROR_RX
deriving DecidableEq, BEq, Repr

open Modbus_Status_t RS485_Status_t

/-! ## CRC engine (`Modbus_CRC16`, modbus.c lines 18-39) -/

/-- One iteration of the inner `for (j = 0; j < 8; j++)` loop of
`Modbus_CRC16`: if the low bit is set, shift right and XOR with the
polynomial 0xA001, otherwise just shift right. -/
def crcShiftStep (crc : Nat) : Nat :=
  if crc % 2 = 1 then (crc / 2) ^^^ 0xA001 else crc / 2

/-- The term `crcBits crc j` applies `crcShiftStep` `j` times (the inner loop runs it
8 times per byte). -/
def crcBits : Nat → Nat → Nat
  | crc, 0 => crc
  | crc, j + 1 => crcBits (crcShiftStep crc) j

/-- One iteration of the outer loop of `Modbus_CRC16`: `crc ^= data[i]`
(the byte is a `uint8_t`, hence the `% 256`) followed by the eight shift
steps. -/
def crcByteStep (crc b : Nat) : Nat := crcBits (crc ^^^ (b % 256)) 8

/-- Function `Modbus_CRC16` (modbus.c): register initialised to 0xFFFF, then one
`crcByteStep` per input byte, no final XOR. -/
def Modbus_CRC16 (data : List Nat) : Nat := data.foldl crcByteStep 0xFFFF

/-- The low CRC byte `crc & 0xFF`, appended first on the wire. -/
def crcLo (crc : Nat) : Nat := crc % 256

/-- The high CRC byte `(crc >> 8) & 0xFF`, appended second on the wire. -/
def crcHi (crc : Nat) : Nat := (crc / 256) % 256

/-! ## Frame construction (modbus.c) -/

/-- The 8-byte request frame built by `Modbus_WriteCoil` (modbus.c lines
60-70): `[slave addr, FC 05, coil addr hi = 0, coil addr lo = channel - 1,
value hi = state ? 0xFF : 0x00, value lo = 0, crc lo, crc hi]`. -/
def writeCoilFrame (channel state : Nat) : List Nat :=
  let body := [ MODBUS_SLAVE_ADDR, MODBUS_FC_WRITE_COIL, 0x00, channel - 1,
               if state ≠ 0 then 0xFF else 0x00, 0x00]
  let crc := Modbus_CRC16 body
  body ++ [crcLo crc, crcHi crc]

/-- The 8-byte request frame built by `Modbus_ReadCoils` (modbus.c lines
119-131): read 8 coils starting at address 0. -/
def readCoilsFrame : List Nat :=
  let body := [ MODBUS_SLAVE_ADDR, MODBUS_FC_READ_COILS, 0x00, 0x00, 0x00, 0x08]
  let crc := Modbus_CRC16 body
  body ++ [crcLo crc, crcHi crc]

/-! ## Response validation (modbus.c) -/

/-- CRC check of the fixed-size 8-byte write-coil echo (modbus.c lines
86-92): recompute the CRC over the first 6 received bytes and compare with
bytes 6 (low) and 7 (high). -/
def responseCrcOk8 (rx : List Nat) : Bool :=
  let crc := Modbus_CRC16 (rx.take 6)
  rx.getD 6 0 == crcLo crc && rx.getD 7 0 == crcHi crc

/-- Echo check of `Modbus_WriteCoil` (modbus.c lines 94-99): the response
matches the request on bytes 0-3 (slave address, function code, coil
address high, coil address low).  Bytes 4 and 5 (the value field) are not
compared. -/
def writeCoilEchoOk (tx rx : List Nat) : Bool :=
  rx.getD 0 0 == tx.getD 0 0 && rx.getD 1 0 == tx.getD 1 0 &&
  rx.getD 2 0 == tx.getD 2 0 && rx.getD 3 0 == tx.getD 3 0

/-- Variable-length CRC check of `Modbus_ReadCoils` (modbus.c lines
146-152): recompute the CRC over bytes `[0, rxLen - 2)` and compare with
bytes `rxLen - 2` (low) and `rxLen - 1` (high). -/
def readCoilsCrcOk (rx : List Nat) : Bool :=
  let crc := Modbus_CRC16 (rx.take (rx.length - 2))
  rx.getD (rx.length - 2) 0 == crcLo crc && rx.getD (rx.length - 1) 0 == crcHi crc

/-- Header check of `Modbus_ReadCoils` (modbus.c line 155): the response
starts with the slave address and the read-coils function code. -/
def readCoilsHeaderOk (rx : List Nat) : Bool :=
  rx.getD 0 0 == MODBUS_SLAVE_ADDR && rx.getD 1 0 == MODBUS_FC_READ_COILS

/-! ## Transaction orchestration (modbus.c)

One call to `RS485_TransmitReceive` is modelled by an environment
`env : Nat → RS485_Status_t × List Nat` giving, for the i-th attempt, the
returned status and the received bytes (whose length is the stored
`rxLen`). -/

/-- Success condition of one attempt of the `Modbus_WriteCoil` retry loop
(modbus.c lines 76-101).  The three failure branches of the loop body
(transport error or `rxLen < 8`; CRC mismatch; echo mismatch) are each
followed by `HAL_Delay(MODBUS_RETRY_DELAY_MS)` and `continue`, so an
attempt succeeds exactly when all of the checks pass. -/
def writeCoilAttemptOk (tx : List Nat) (o : RS485_Status_t × List Nat) : Bool :=
  o.1 == RS485_OK && decide (8 ≤ o.2.length) &&
  responseCrcOk8 o.2 && writeCoilEchoOk tx o.2

/-- Success condition of one attempt of the `Modbus_ReadCoils` retry loop
(modbus.c lines 135-163): transport OK, `rxLen ≥ 5`, CRC over
`[0, rxLen - 2)` matches the trailing bytes, and the header matches. -/
def readCoilsAttemptOk (o : RS485_Status_t × List Nat) : Bool :=
  o.1 == RS485_OK && decide (5 ≤ o.2.length) &&
  readCoilsCrcOk o.2 && readCoilsHeaderOk o.2

/-- Observable trace of one `Modbus_WriteCoil` call: the returned status,
the number of `RS485_TransmitReceive` invocations, and the number of
`HAL_Delay(MODBUS_RETRY_DELAY_MS)` backoff delays (one per failed
attempt). -/
structure ModbusTrace where
  status : Modbus_Status_t
  attempts : Nat
  delays : Nat
deriving DecidableEq, Repr

/-- The retry loop of `Modbus_WriteCoil` (modbus.c lines 73-104): `i` is
the index of the next attempt, `fuel` the number of retries left
(initially `MODBUS_RETRY_COUNT`).  A successful attempt returns
`MODBUS_OK` immediately; each failed attempt delays once and continues;
exhaustion returns `MODBUS_ERROR_TIMEOUT`. -/
def writeCoilLoop (tx : List Nat) (env : Nat → RS485_Status_t × List Nat) :
    Nat → Nat → ModbusTrace
  | i, 0 => ⟨MODBUS_ERROR_TIMEOUT, i, i⟩
  | i, fuel + 1 =>
    if writeCoilAttemptOk tx (env i) then ⟨MODBUS_OK, i + 1, i⟩
    else writeCoilLoop tx env (i + 1) fuel

/-- Function `Modbus_WriteCoil` (modbus.c lines 46-104): channels outside
`[1, MODBUS_RELAY_COUNT]` are rejected before any transport activity;
otherwise the frame is built and the retry loop runs. -/
def Modbus_WriteCoil (channel state : Nat)
    (env : Nat → RS485_Status_t × List Nat) : ModbusTrace :=
  if channel < 1 ∨ MODBUS_RELAY_COUNT < channel then
    ⟨MODBUS_ERROR_INVALID_PARAM, 0, 0⟩
  else writeCoilLoop (writeCoilFrame channel state) env 0 MODBUS_RETRY_COUNT

/-- Observable trace of one `Modbus_ReadCoils` call; `relayStates` is the
value of the caller's `*relayStates` location after the call (threaded
through from its initial value, since the code writes it only on the
success path). -/
structure ReadCoilsTrace where
  status : Modbus_Status_t
  attempts : Nat
  delays : Nat
  relayStates : Nat
deriving DecidableEq, Repr

/-- The retry loop of `Modbus_ReadCoils` (modbus.c lines 134-166): on a
successful attempt, `*relayStates = rxBuffer[3]` and `MODBUS_OK` is
returned; each failed attempt delays once and continues; exhaustion
returns `MODBUS_ERROR_TIMEOUT` leaving `*relayStates` untouched. -/
def readCoilsLoop (env : Nat → RS485_Status_t × List Nat) :
    Nat → Nat → Nat → ReadCoilsTrace
  | relay0, i, 0 => ⟨MODBUS_ERROR_TIMEOUT, i, i, relay0⟩
  | relay0, i, fuel + 1 =>
    if readCoilsAttemptOk (env i) then ⟨MODBUS_OK, i + 1, i, (env i).2.getD 3 0⟩
    else readCoilsLoop env relay0 (i + 1) fuel

/-- Function `Modbus_ReadCoils` (modbus.c lines 112-167). `relay0` is the initial
contents of the caller's `*relayStates`. -/
def Modbus_ReadCoils (env : Nat → RS485_Status_t × List Nat)
    (relay0 : Nat) : ReadCoilsTrace :=
  readCoilsLoop env relay0 0 MODBUS_RETRY_COUNT

/-! ## RS485 half-duplex transport (rs485.c) -/

/-- Bus direction driven by the DE pin macros `RS485_DE_TX_MODE()` /
`RS485_DE_RX_MODE()`. -/
inductive BusDirection
  | Transmit
  | Receive
deriving DecidableEq, Repr

/-- Environment of one `RS485_Transmit` call: whether the blocking
`HAL_UART_Transmit` returns `HAL_OK`, and whether the TC (transmit
complete) flag is observed before `RS485_TX_TIMEOUT_MS` elapses. -/
structure TxEnv where
  sendOk : Bool
  tcFlagOk : Bool

/-- Function `RS485_Transmit` (rs485.c lines 40-83), abstracted over the HAL
environment: flush, switch to Transmit, settle; on `HAL_UART_Transmit`
failure switch back to Receive and return `RS485_ERROR_TX`; on TC-flag
timeout switch back to Receive and return `RS485_ERROR_TX`; on success
switch back to Receive and return `RS485_OK`.  The second component is the
bus direction when the function returns. -/
def RS485_Transmit (env : TxEnv) : RS485_Status_t × BusDirection :=
  if ¬env.sendOk then (RS485_ERROR_TX, BusDirection.Receive)
  else if ¬env.tcFlagOk then (RS485_ERROR_TX, BusDirection.Receive)
  else (RS485_OK, BusDirection.Receive)

/-- Bus-level operations a `Modbus_WriteCoil` / `Modbus_ReadCoils` call
performs: each attempt is one `RS485_Transmit` followed by one
`RS485_Receive` (which unconditionally executes `RS485_DE_RX_MODE()` on
entry and never changes direction afterwards, rs485.c line 113). -/
inductive BusOp
  | transmitOp (env : TxEnv)
  | receiveOp

/-- Effect of one bus operation on the direction flag. -/
def busStep (_d : BusDirection) : BusOp → BusDirection
  | BusOp.transmitOp env => (RS485_Transmit env).2
  | BusOp.receiveOp => BusDirection.Receive

/-- Function `RS485_Init` (rs485.c lines 26-32) puts the bus in Receive mode. -/
def RS485_Init_direction : BusDirection := BusDirection.Receive

/-! ### Byte-level receive with idle-timeout framing (`RS485_Receive`,
rs485.c lines 90-137)

The incoming byte stream is modelled as a list of `(gap, byte)` pairs,
`gap` being the number of milliseconds between the arrival of the previous
byte and this one.  The accumulation loop (lines 118-134) repeatedly calls
`HAL_UART_Receive(.., 1, 10)` — a poll that blocks at most 10 ms but
returns as soon as a byte arrives — and, after each *failed* poll, breaks
when more than 50 ms have elapsed since the last byte.  Polls re-arm
immediately after each received byte, so failed polls end 10, 20, ... ms
after the last byte; `sinceLast` below is that poll clock.  A pending byte
with gap `g` is received by the poll covering `(sinceLast, sinceLast + 10]`
exactly when `g ≤ sinceLast + 10`. -/

/-- The accumulation loop of `RS485_Receive` after the first byte:
`pending` are the not-yet-received bytes with their inter-byte gaps,
`sinceLast` the poll clock (ms since the last received byte, a multiple of
10), `cnt` the current `rxCount`, `acc` the bytes stored so far.  Stops
when `rxCount` reaches `RS485_RX_BUFFER_SIZE`, or when a failed poll finds
more than 50 ms of silence (`(HAL_GetTick() - lastByteTick) > 50`). -/
def rs485AccumFrom (pending : List (Nat × Nat)) (sinceLast cnt : Nat)
    (acc : List Nat) : List Nat :=
  match pending with
  | [] => acc
  | (g, b) :: rest =>
    if cnt < RS485_RX_BUFFER_SIZE then
      if g ≤ sinceLast + 10 then
        rs485AccumFrom rest 0 (cnt + 1) (acc ++ [b])
      else if 50 < sinceLast + 10 then acc
      else rs485AccumFrom ((g, b) :: rest) (sinceLast + 10) cnt acc
    else acc
termination_by (pending.length, 51 - sinceLast)
decreasing_by
  · simp only [List.length_cons]
    exact Prod.Lex.left _ _ (Nat.lt_succ_self _)
  · exact Prod.Lex.right _ (by omega)

/-- Function `RS485_Receive` (rs485.c lines 90-137): the stream is `none` when no
byte ever arrives (timeout, `*length = 0`), or `some (d, b, rest)` where
`d` is the delay of the first byte after the call starts.  On a first byte
within the timeout, the remaining bytes are accumulated starting from
`rxCount = 1`.  Returns the status and the received bytes (the stored
`*length` is their count). -/
def RS485_Receive (stream : Option (Nat × Nat × List (Nat × Nat)))
    (timeout_ms : Nat) : RS485_Status_t × List Nat :=
  match stream with
  | none => (RS485_ERROR_TIMEOUT, [])
  | some (d, b, rest) =>
    if d ≤ timeout_ms then (RS485_OK, rs485AccumFrom rest 0 1 [b])
    else (RS485_ERROR_TIMEOUT, [])

/-- A transport environment whose every exchange fails at the RS485 level
(e.g. the slave never answers): used to exercise retry exhaustion. -/
def envAllFail : Nat → RS485_Status_t × List Nat :=
  fun _ => (RS485_ERROR_TIMEOUT, [])

/-- A CRC-valid 8-byte "echo" of the write-coil request for channel 1 /
state 1, agreeing on bytes 0-3 but reporting value 0x0000 instead of the
transmitted 0xFF00 (bytes 4-5): `Modbus_CRC16 [1,5,0,0,0,0] = 0xCACD`. -/
def respWrongValue : List Nat := [ 0x01, 0x05, 0x00, 0x00, 0x00, 0x00, 0xCD, 0xCA]

/-- A well-formed read-coils response reporting bitmask 0b00000101:
`[addr, fc, byte count, coil data, crc lo, crc hi]` with
`Modbus_CRC16 [1,1,1,5] = 0x8B91`. -/
def readCoilsGoodResp : List Nat := [ 0x01, 0x01, 0x01, 0x05, 0x91, 0x8B]

/-- A transport whose first two exchanges fail and whose third returns a
well-formed read-coils response. -/
def envFailTwiceThenRead : Nat → RS485_Status_t × List Nat :=
  fun i => if i < 2 then (RS485_ERROR_TIMEOUT, []) else (RS485_OK, readCoilsGoodResp)

/-- A transport that echoes the channel-1 / state-0 write-coil request
perfectly. -/
def envEchoGood : Nat → RS485_Status_t × List Nat :=
  fun _ => (RS485_OK, writeCoilFrame 1 0)


/-! ## Helper lemmas -/

theorem writeCoilLoop_zero (tx : List Nat) (env : Nat → RS485_Status_t × List Nat)
    (i : Nat) : writeCoilLoop tx env i 0 = ⟨MODBUS_ERROR_TIMEOUT, i, i⟩ := rfl

theorem writeCoilLoop_succ (tx : List Nat) (env : Nat → RS485_Status_t × List Nat)
    (i fuel : Nat) :
    writeCoilLoop tx env i (fuel + 1) =
      if writeCoilAttemptOk tx (env i) then ⟨MODBUS_OK, i + 1, i⟩
      else writeCoilLoop tx env (i + 1) fuel := rfl

theorem writeCoilLoop_attempts_le (tx : List Nat)
    (env : Nat → RS485_Status_t × List Nat) :
    ∀ fuel i, (writeCoilLoop tx env i fuel).attempts ≤ i + fuel := by
  intro fuel
  induction fuel with
  | zero => intro i; exact Nat.le_refl _
  | succ n ih =>
    intro i
    rw [writeCoilLoop_succ]
    split_ifs
    · exact show i + 1 ≤ i + (n + 1) by omega
    · exact Nat.le_trans (ih (i + 1)) (by omega)

theorem writeCoilLoop_attempts_ge (tx : List Nat)
    (env : Nat → RS485_Status_t × List Nat) :
    ∀ fuel i, i ≤ (writeCoilLoop tx env i fuel).attempts := by
  intro fuel
  induction fuel with
  | zero => intro i; exact Nat.le_refl _
  | succ n ih =>
    intro i
    rw [writeCoilLoop_succ]
    split_ifs
    · exact Nat.le_of_lt (Nat.lt_succ_self i)
    · exact Nat.le_trans (Nat.le_succ i) (ih (i + 1))

theorem writeCoilLoop_attempts_pos (tx : List Nat)
    (env : Nat → RS485_Status_t × List Nat) :
    ∀ fuel i, 1 ≤ fuel → i + 1 ≤ (writeCoilLoop tx env i fuel).attempts := by
  intro fuel i h
  cases fuel with
  | zero => omega
  | succ n =>
    rw [writeCoilLoop_succ]
    split_ifs
    · exact Nat.le_refl _
    · exact writeCoilLoop_attempts_ge tx env n (i + 1)

theorem writeCoilLoop_all_fail (tx : List Nat)
    (env : Nat → RS485_Status_t × List Nat) :
    ∀ fuel i, (∀ j, i ≤ j → j < i + fuel → writeCoilAttemptOk tx (env j) = false) →
      writeCoilLoop tx env i fuel = ⟨MODBUS_ERROR_TIMEOUT, i + fuel, i + fuel⟩ := by
  intro fuel
  induction fuel with
  | zero => intro i _; rfl
  | succ n ih =>
    intro i h
    rw [writeCoilLoop_succ, if_neg, ih (i + 1) (fun j hj hj2 => h j (by omega) (by omega))]
    · congr 1 <;> omega
    · simp [h i (Nat.le_refl i) (by omega)]

theorem writeCoilLoop_first_success (tx : List Nat)
    (env : Nat → RS485_Status_t × List Nat) :
    ∀ fuel i k, i ≤ k → k < i + fuel →
      (∀ j, i ≤ j → j < k → writeCoilAttemptOk tx (env j) = false) →
      writeCoilAttemptOk tx (env k) = true →
      writeCoilLoop tx env i fuel = ⟨MODBUS_OK, k + 1, k⟩ := by
  intro fuel
  induction fuel with
  | zero => intro i k h1 h2 _ _; omega
  | succ n ih =>
    intro i k h1 h2 hfail hok
    rcases Nat.eq_or_lt_of_le h1 with rfl | hlt
    · rw [writeCoilLoop_succ, if_pos hok]
    · rw [writeCoilLoop_succ, if_neg (by simp [hfail i (Nat.le_refl i) hlt])]
      exact ih (i + 1) k hlt (by omega) (fun j hj hj2 => hfail j (by omega) hj2) hok

theorem readCoilsLoop_zero (env : Nat → RS485_Status_t × List Nat)
    (relay0 i : Nat) :
    readCoilsLoop env relay0 i 0 = ⟨MODBUS_ERROR_TIMEOUT, i, i, relay0⟩ := rfl

theorem readCoilsLoop_succ (env : Nat → RS485_Status_t × List Nat)
    (relay0 i fuel : Nat) :
    readCoilsLoop env relay0 i (fuel + 1) =
      if readCoilsAttemptOk (env i) then ⟨MODBUS_OK, i + 1, i, (env i).2.getD 3 0⟩
      else readCoilsLoop env relay0 (i + 1) fuel := rfl

theorem readCoilsLoop_attempts_le (env : Nat → RS485_Status_t × List Nat)
    (relay0 : Nat) :
    ∀ fuel i, (readCoilsLoop env relay0 i fuel).attempts ≤ i + fuel := by
  intro fuel
  induction fuel with
  | zero => intro i; exact Nat.le_refl _
  | succ n ih =>
    intro i
    rw [readCoilsLoop_succ]
    split_ifs
    · exact show i + 1 ≤ i + (n + 1) by omega
    · exact Nat.le_trans (ih (i + 1)) (by omega)

theorem readCoilsLoop_all_fail (env : Nat → RS485_Status_t × List Nat)
    (relay0 : Nat) :
    ∀ fuel i, (∀ j, i ≤ j → j < i + fuel → readCoilsAttemptOk (env j) = false) →
      readCoilsLoop env relay0 i fuel =
        ⟨MODBUS_ERROR_TIMEOUT, i + fuel, i + fuel, relay0⟩ := by
  intro fuel
  induction fuel with
  | zero => intro i _; rfl
  | succ n ih =>
    intro i h
    rw [readCoilsLoop_succ, if_neg, ih (i + 1) (fun j hj hj2 => h j (by omega) (by omega))]
    · congr 1 <;> omega
    · simp [h i (Nat.le_refl i) (by omega)]

theorem readCoilsLoop_first_success (env : Nat → RS485_Status_t × List Nat)
    (relay0 : Nat) :
    ∀ fuel i k, i ≤ k → k < i + fuel →
      (∀ j, i ≤ j → j < k → readCoilsAttemptOk (env j) = false) →
      readCoilsAttemptOk (env k) = true →
      readCoilsLoop env relay0 i fuel = ⟨MODBUS_OK, k + 1, k, (env k).2.getD 3 0⟩ := by
  intro fuel
  induction fuel with
  | zero => intro i k h1 h2 _ _; omega
  | succ n ih =>
    intro i k h1 h2 hfail hok
    rcases Nat.eq_or_lt_of_le h1 with rfl | hlt
    · rw [readCoilsLoop_succ, if_pos hok]
    · rw [readCoilsLoop_succ, if_neg (by simp [hfail i (Nat.le_refl i) hlt])]
      exact ih (i + 1) k hlt (by omega) (fun j hj hj2 => hfail j (by omega) hj2) hok

theorem readCoilsLoop_relay_preserved (env : Nat → RS485_Status_t × List Nat)
    (relay0 : Nat) :
    ∀ fuel i, (readCoilsLoop env relay0 i fuel).status ≠ MODBUS_OK →
      (readCoilsLoop env relay0 i fuel).relayStates = relay0 := by
  intro fuel
  induction fuel with
  | zero => intro i _; rfl
  | succ n ih =>
    intro i h
    rw [readCoilsLoop_succ] at h ⊢
    split_ifs at h ⊢ with hc
    · exact absurd rfl h
    · exact ih (i + 1) h

theorem readCoilsLoop_ok_exists (env : Nat → RS485_Status_t × List Nat)
    (relay0 : Nat) :
    ∀ fuel i, (readCoilsLoop env relay0 i fuel).status = MODBUS_OK →
      ∃ k, i ≤ k ∧ k < i + fuel ∧ readCoilsAttemptOk (env k) = true ∧
        (readCoilsLoop env relay0 i fuel).relayStates = (env k).2.getD 3 0 := by
  intro fuel
  induction fuel with
  | zero => intro i h; exact absurd h (by simp [readCoilsLoop_zero])
  | succ n ih =>
    intro i h
    rw [readCoilsLoop_succ] at h ⊢
    split_ifs at h ⊢ with hc
    · exact ⟨i, Nat.le_refl i, by omega, hc, rfl⟩
    · obtain ⟨k, hk1, hk2, hk3, hk4⟩ := ih (i + 1) h
      exact ⟨k, by omega, by omega, hk3, hk4⟩

theorem accum_nil (s cnt : Nat) (acc : List Nat) :
    rs485AccumFrom [] s cnt acc = acc := by
  rw [rs485AccumFrom]

theorem accum_unfold (g b : Nat) (rest : List (Nat × Nat)) (s cnt : Nat)
    (acc : List Nat) :
    rs485AccumFrom ((g, b) :: rest) s cnt acc =
      if cnt < RS485_RX_BUFFER_SIZE then
        if g ≤ s + 10 then rs485AccumFrom rest 0 (cnt + 1) (acc ++ [b])
        else if 50 < s + 10 then acc
        else rs485AccumFrom ((g, b) :: rest) (s + 10) cnt acc
      else acc := by
  rw [rs485AccumFrom]

theorem accum_accept_aux (g b : Nat) (rest : List (Nat × Nat)) (cnt : Nat)
    (acc : List Nat) (hcnt : cnt < RS485_RX_BUFFER_SIZE) (hg : g ≤ 60) :
    ∀ m s, s + 10 * m = 60 → 1 ≤ m →
      rs485AccumFrom ((g, b) :: rest) s cnt acc =
        rs485AccumFrom rest 0 (cnt + 1) (acc ++ [b]) := by
  intro m
  induction m with
  | zero => intro s _ h1; omega
  | succ n ih =>
    intro s hs _
    rw [accum_unfold, if_pos hcnt]
    by_cases hstep : g ≤ s + 10
    · rw [if_pos hstep]
    · rcases Nat.eq_zero_or_pos n with rfl | hn
      · omega
      · rw [if_neg hstep, if_neg (by omega : ¬(50 < s + 10))]
        exact ih (s + 10) (by omega) hn

/-- A byte whose inter-byte gap is at most 60 ms is accumulated: the idle
check `(HAL_GetTick() - lastByteTick) > 50` only runs after a failed
10 ms poll, so it first fires 60 ms after the last byte. -/
theorem accum_accept (g b : Nat) (rest : List (Nat × Nat)) (cnt : Nat)
    (acc : List Nat) (hcnt : cnt < RS485_RX_BUFFER_SIZE) (hg : g ≤ 60) :
    rs485AccumFrom ((g, b) :: rest) 0 cnt acc =
      rs485AccumFrom rest 0 (cnt + 1) (acc ++ [b]) :=
  accum_accept_aux g b rest cnt acc hcnt hg 6 0 (by omega) (by omega)

theorem accum_reject_aux (g b : Nat) (rest : List (Nat × Nat)) (cnt : Nat)
    (acc : List Nat) (hcnt : cnt < RS485_RX_BUFFER_SIZE) (hg : 60 < g) :
    ∀ m s, s + 10 * m = 60 → 1 ≤ m →
      rs485AccumFrom ((g, b) :: rest) s cnt acc = acc := by
  intro m
  induction m with
  | zero => intro s _ h1; omega
  | succ n ih =>
    intro s hs _
    rw [accum_unfold, if_pos hcnt, if_neg (by omega : ¬(g ≤ s + 10))]
    rcases Nat.eq_zero_or_pos n with rfl | hn
    · rw [if_pos (by omega : 50 < s + 10)]
    · rw [if_neg (by omega : ¬(50 < s + 10))]
      exact ih (s + 10) (by omega) hn

/-- A gap of more than 60 ms of silence terminates the accumulation. -/
theorem accum_reject (g b : Nat) (rest : List (Nat × Nat)) (cnt : Nat)
    (acc : List Nat) (hcnt : cnt < RS485_RX_BUFFER_SIZE) (hg : 60 < g) :
    rs485AccumFrom ((g, b) :: rest) 0 cnt acc = acc :=
  accum_reject_aux g b rest cnt acc hcnt hg 6 0 (by omega) (by omega)

/-- Accumulation stops when `rxCount` has reached the buffer capacity. -/
theorem accum_capacity (g b : Nat) (rest : List (Nat × Nat)) (s cnt : Nat)
    (acc : List Nat) (hcnt : RS485_RX_BUFFER_SIZE ≤ cnt) :
    rs485AccumFrom ((g, b) :: rest) s cnt acc = acc := by
  rw [accum_unfold, if_neg (by omega)]

/-- Whole-stream behaviour: every byte of `pre` (all gaps ≤ 60 ms) is
accumulated, and the first gap over 60 ms terminates accumulation exactly
there, whatever follows it. -/
theorem accum_stream (g b : Nat) (post : List (Nat × Nat)) (hg : 60 < g) :
    ∀ (pre : List (Nat × Nat)) (cnt : Nat) (acc : List Nat),
      (∀ x ∈ pre, x.1 ≤ 60) → cnt + pre.length ≤ RS485_RX_BUFFER_SIZE →
      rs485AccumFrom (pre ++ (g, b) :: post) 0 cnt acc =
        acc ++ pre.map Prod.snd := by
  intro pre
  induction pre with
  | nil =>
    intro cnt acc _ hcap
    rcases Nat.lt_or_ge cnt RS485_RX_BUFFER_SIZE with h | h
    · simpa using accum_reject g b post cnt acc h hg
    · simpa using accum_capacity g b post 0 cnt acc h
  | cons hd tl ih =>
    intro cnt acc hall hcap
    obtain ⟨g0, b0⟩ := hd
    rw [List.cons_append,
      accum_accept g0 b0 _ cnt acc (by simp at hcap; omega)
        (hall (g0, b0) (by simp)),
      ih (cnt + 1) (acc ++ [b0]) (fun x hx => hall x (by simp [hx]))
        (by simp at hcap ⊢; omega)]
    simp

/-- Every bus operation leaves the direction flag in Receive. -/
theorem busStep_receive (d : BusDirection) (op : BusOp) :
    busStep d op = BusDirection.Receive := by
  cases op with
  | transmitOp env =>
    show (RS485_Transmit env).2 = BusDirection.Receive
    unfold RS485_Transmit
    split_ifs <;> rfl
  | receiveOp => rfl

/-! ## Claim theorems -/

/-- C1: for every channel in [1,8] and every state in {0,1},
`Modbus_WriteCoil`'s frame construction produces exactly the 8-byte frame
`[0x01, 0x05, 0x00, channel-1, state?0xFF:0x00, 0x00, crc_lo, crc_hi]`
whose last two bytes are the CRC16 of the first 6 bytes, low byte first. -/
theorem writeCoil_frame_layout (channel state : Nat)
    (_hlo : 1 ≤ channel) (_hhi : channel ≤ 8) (hstate : state = 0 ∨ state = 1) :
    writeCoilFrame channel state =
      [ 0x01, 0x05, 0x00, channel - 1, if state = 0 then 0x00 else 0xFF, 0x00] ++
      [ crcLo (Modbus_CRC16
          [ 0x01, 0x05, 0x00, channel - 1, if state = 0 then 0x00 else 0xFF, 0x00]),
        crcHi (Modbus_CRC16
          [ 0x01, 0x05, 0x00, channel - 1, if state = 0 then 0x00 else 0xFF, 0x00])] ∧
    (writeCoilFrame channel state).take 6 =
      [ 0x01, 0x05, 0x00, channel - 1, if state = 0 then 0x00 else 0xFF, 0x00] ∧
    (writeCoilFrame channel state).length = 8 := by
  rcases hstate with rfl | rfl <;> exact ⟨rfl, rfl, rfl⟩

theorem writeCoil_frame_layout_witness : (writeCoilFrame 3 1).length = 8 :=
  (writeCoil_frame_layout 3 1 (by omega) (by omega) (Or.inr rfl)).2.2

set_option maxRecDepth 4096 in
/-- C2: `Modbus_CRC16` is the standard Modbus CRC16 (initial register
0xFFFF, each byte XORed into the low byte, 8 `crcShiftStep` steps per byte
applying polynomial 0xA001 on a set low bit, no final XOR): the empty
input yields 0xFFFF, the standard test vector for the `01 05 00 00 FF 00`
frame yields 0x3A8C (wire bytes `8C 3A`), processing is byte-by-byte in
sequence, and the result is a deterministic function of the byte list. -/
theorem modbus_crc16_algorithm :
    Modbus_CRC16 [] = 0xFFFF ∧
    Modbus_CRC16 [ 0x01, 0x05, 0x00, 0x00, 0xFF, 0x00] = 0x3A8C ∧
    (∀ data b, Modbus_CRC16 (data ++ [b]) = crcByteStep (Modbus_CRC16 data) b) ∧
    (∀ d1 d2 : List Nat, d1 = d2 → Modbus_CRC16 d1 = Modbus_CRC16 d2) := by
  refine ⟨rfl, by decide, fun data b => ?_, fun d1 d2 h => by rw [h]⟩
  simp [Modbus_CRC16, List.foldl_append]

theorem modbus_crc16_algorithm_witness :
    Modbus_CRC16 [ 0x2A] = Modbus_CRC16 [ 0x2A] :=
  modbus_crc16_algorithm.2.2.2 [ 0x2A] [ 0x2A] rfl

/-- C7: for every channel outside [1,8] and every state, `Modbus_WriteCoil`
returns `MODBUS_ERROR_INVALID_PARAM` with zero transport attempts and zero
backoff delays, whatever the transport would have answered — no other
error value is possible for such an input. -/
theorem writeCoil_invalid_param (channel state : Nat)
    (env : Nat → RS485_Status_t × List Nat)
    (h : channel < 1 ∨ 8 < channel) :
    Modbus_WriteCoil channel state env = ⟨MODBUS_ERROR_INVALID_PARAM, 0, 0⟩ := by
  unfold Modbus_WriteCoil MODBUS_RELAY_COUNT
  rw [if_pos h]

theorem writeCoil_invalid_param_witness :
    Modbus_WriteCoil 0 1 envAllFail = ⟨MODBUS_ERROR_INVALID_PARAM, 0, 0⟩ :=
  writeCoil_invalid_param 0 1 envAllFail (Or.inl (by omega))

/-- C8: `RS485_Transmit` switches the bus back to Receive before returning
on every execution path (send failure, transmit-complete timeout,
success), and consequently, starting from the initial Receive state set by
`RS485_Init`, every sequence of transmit/receive bus operations leaves the
direction flag in Receive — the bus never parks in Transmit mode. -/
theorem bus_direction_returns_to_receive :
    (∀ env : TxEnv, (RS485_Transmit env).2 = BusDirection.Receive) ∧
    (∀ ops : List BusOp,
      List.foldl busStep RS485_Init_direction ops = BusDirection.Receive) := by
  constructor
  · intro env
    exact busStep_receive BusDirection.Receive (BusOp.transmitOp env)
  · intro ops
    induction ops with
    | nil => rfl
    | cons op tl ih => rw [List.foldl_cons, busStep_receive]; exact ih

/-- C3: both operations make at most 3 transport attempts; against a
transport whose every attempt fails (transport error, short response, CRC
mismatch or response mismatch alike) exactly 3 attempts are made, each
failure is followed by one 50 ms backoff delay (3 delays), and the final
result is Timeout whatever the last failure was; the first successful
attempt k (all earlier ones failing) short-circuits with success after
k + 1 attempts and k delays — in particular two failures then a success
give success after exactly 3 attempts. -/
theorem modbus_retry_policy (channel state relay0 : Nat)
    (env : Nat → RS485_Status_t × List Nat)
    (_hlo : 1 ≤ channel) (hhi : channel ≤ 8) :
    ((Modbus_WriteCoil channel state env).attempts ≤ 3 ∧
     (Modbus_ReadCoils env relay0).attempts ≤ 3) ∧
    ((∀ i, i < 3 → writeCoilAttemptOk (writeCoilFrame channel state) (env i) = false) →
      Modbus_WriteCoil channel state env = ⟨MODBUS_ERROR_TIMEOUT, 3, 3⟩) ∧
    ((∀ i, i < 3 → readCoilsAttemptOk (env i) = false) →
      Modbus_ReadCoils env relay0 = ⟨MODBUS_ERROR_TIMEOUT, 3, 3, relay0⟩) ∧
    (∀ k, k < 3 →
      (∀ j, j < k → writeCoilAttemptOk (writeCoilFrame channel state) (env j) = false) →
      writeCoilAttemptOk (writeCoilFrame channel state) (env k) = true →
      Modbus_WriteCoil channel state env = ⟨MODBUS_OK, k + 1, k⟩) ∧
    (∀ k, k < 3 →
      (∀ j, j < k → readCoilsAttemptOk (env j) = false) →
      readCoilsAttemptOk (env k) = true →
      Modbus_ReadCoils env relay0 = ⟨MODBUS_OK, k + 1, k, (env k).2.getD 3 0⟩) := by
  have hch : ¬(channel < 1 ∨ MODBUS_RELAY_COUNT < channel) := by
    unfold MODBUS_RELAY_COUNT; omega
  have hw : Modbus_WriteCoil channel state env =
      writeCoilLoop (writeCoilFrame channel state) env 0 3 := by
    unfold Modbus_WriteCoil; rw [if_neg hch]; rfl
  have hr : Modbus_ReadCoils env relay0 = readCoilsLoop env relay0 0 3 := rfl
  refine ⟨⟨?_, ?_⟩, ?_, ?_, ?_, ?_⟩
  · rw [hw]; simpa using writeCoilLoop_attempts_le _ env 3 0
  · rw [hr]; simpa using readCoilsLoop_attempts_le env relay0 3 0
  · intro h; rw [hw]
    simpa using writeCoilLoop_all_fail _ env 3 0 (fun j _ hj => h j (by omega))
  · intro h; rw [hr]
    simpa using readCoilsLoop_all_fail env relay0 3 0 (fun j _ hj => h j (by omega))
  · intro k hk hfail hok
    rw [hw]
    exact writeCoilLoop_first_success _ env 3 0 k (by omega) (by omega)
      (fun j _ hj => hfail j hj) hok
  · intro k hk hfail hok
    rw [hr]
    exact readCoilsLoop_first_success env relay0 3 0 k (by omega) (by omega)
      (fun j _ hj => hfail j hj) hok

set_option maxRecDepth 4096 in
theorem modbus_retry_policy_witness :
    Modbus_WriteCoil 1 1 envAllFail = ⟨MODBUS_ERROR_TIMEOUT, 3, 3⟩ ∧
    Modbus_ReadCoils envAllFail 7 = ⟨MODBUS_ERROR_TIMEOUT, 3, 3, 7⟩ ∧
    Modbus_ReadCoils envFailTwiceThenRead 7 = ⟨MODBUS_OK, 3, 2, 0b00000101⟩ := by
  have h := modbus_retry_policy 1 1 7 envAllFail (by omega) (by omega)
  have h2 := modbus_retry_policy 1 1 7 envFailTwiceThenRead (by omega) (by omega)
  refine ⟨h.2.1 (fun i _ => rfl), h.2.2.1 (fun i _ => rfl), ?_⟩
  have h3 := h2.2.2.2.2 2 (by omega)
    (fun j hj => by interval_cases j <;> rfl) (by decide)
  simpa using h3

/-- C4: the read-coils decode of a received byte sequence fails — the
attempt is retried, so a transport constantly delivering it ends in
Timeout after 3 attempts — if the length is below 5, if the CRC16
recomputed over bytes [0, len-2) disagrees with the trailing two bytes
(low byte first), or if byte 0 differs from 0x01 or byte 1 differs from
0x01; otherwise it succeeds immediately, returning byte 3 as the
relay-state bitmask — in particular a transport delivering
`[0x01, 0x01, 0x01, 0b00000101, crc_lo, crc_hi]` with correct CRC yields
bitmask 0b00000101. -/
theorem readCoils_decode (resp : List Nat) (relay0 : Nat) :
    (resp.length < 5 →
      Modbus_ReadCoils (fun _ => (RS485_OK, resp)) relay0 =
        ⟨MODBUS_ERROR_TIMEOUT, 3, 3, relay0⟩) ∧
    (readCoilsCrcOk resp = false →
      Modbus_ReadCoils (fun _ => (RS485_OK, resp)) relay0 =
        ⟨MODBUS_ERROR_TIMEOUT, 3, 3, relay0⟩) ∧
    (resp.getD 0 0 ≠ 0x01 ∨ resp.getD 1 0 ≠ 0x01 →
      Modbus_ReadCoils (fun _ => (RS485_OK, resp)) relay0 =
        ⟨MODBUS_ERROR_TIMEOUT, 3, 3, relay0⟩) ∧
    (5 ≤ resp.length → readCoilsCrcOk resp = true →
      resp.getD 0 0 = 0x01 → resp.getD 1 0 = 0x01 →
      Modbus_ReadCoils (fun _ => (RS485_OK, resp)) relay0 =
        ⟨MODBUS_OK, 1, 0, resp.getD 3 0⟩) ∧
    Modbus_ReadCoils (fun _ => (RS485_OK, readCoilsGoodResp)) relay0 =
      ⟨MODBUS_OK, 1, 0, 0b00000101⟩ := by
  have hr : ∀ r : List Nat, Modbus_ReadCoils (fun _ => (RS485_OK, r)) relay0 =
      readCoilsLoop (fun _ => (RS485_OK, r)) relay0 0 3 := fun _ => rfl
  have hfail : ∀ r : List Nat, readCoilsAttemptOk (RS485_OK, r) = false →
      Modbus_ReadCoils (fun _ => (RS485_OK, r)) relay0 =
        ⟨MODBUS_ERROR_TIMEOUT, 3, 3, relay0⟩ := by
    intro r hf
    rw [hr]
    simpa using readCoilsLoop_all_fail (fun _ => (RS485_OK, r)) relay0 3 0
      (fun j _ _ => hf)
  refine ⟨?_, ?_, ?_, ?_, ?_⟩
  · intro h
    exact hfail resp (by simp [readCoilsAttemptOk, Nat.not_le.mpr h])
  · intro h
    exact hfail resp (by simp [readCoilsAttemptOk, h])
  · intro h
    refine hfail resp ?_
    simp only [List.getD_eq_getElem?_getD] at h
    rcases h with h | h <;>
      simp [readCoilsAttemptOk, readCoilsHeaderOk, MODBUS_SLAVE_ADDR,
        MODBUS_FC_READ_COILS, h]
  · intro hlen hcrc h0 h1
    have hok : readCoilsAttemptOk (RS485_OK, resp) = true := by
      simp only [List.getD_eq_getElem?_getD] at h0 h1
      simp [readCoilsAttemptOk, readCoilsHeaderOk, MODBUS_SLAVE_ADDR,
        MODBUS_FC_READ_COILS, hlen, hcrc, h0, h1]
      rfl
    rw [hr]
    exact readCoilsLoop_first_success (fun _ => (RS485_OK, resp)) relay0 3 0 0
      (Nat.le_refl 0) (by omega) (fun j _ hj => absurd hj (Nat.not_lt_zero j)) hok
  · rw [hr]
    exact readCoilsLoop_first_success (fun _ => (RS485_OK, readCoilsGoodResp))
      relay0 3 0 0 (Nat.le_refl 0) (by omega)
      (fun j _ hj => absurd hj (Nat.not_lt_zero j)) (by decide)

theorem readCoils_decode_witness :
    Modbus_ReadCoils (fun _ => (RS485_OK, [ 0x01, 0x02])) 9 =
      ⟨MODBUS_ERROR_TIMEOUT, 3, 3, 9⟩ :=
  (readCoils_decode [ 0x01, 0x02] 9).1 (by decide)

set_option maxRecDepth 8192 in
/-- C5 counterexample: `respWrongValue` is an 8-byte CRC-valid response
that echoes the channel-1 / state-1 request on bytes 0-3 but disagrees
with it on the value field — the request transmits value byte 0xFF at
index 4, the response reports 0x00 — and yet `Modbus_WriteCoil` accepts it
as a successful echo on the first attempt instead of failing with a
response mismatch. -/
theorem writeCoil_echo_value_bytes_counterexample :
    Modbus_WriteCoil 1 1 (fun _ => (RS485_OK, respWrongValue)) =
      ⟨MODBUS_OK, 1, 0⟩ ∧
    respWrongValue.length = 8 ∧
    responseCrcOk8 respWrongValue = true ∧
    (writeCoilFrame 1 1).getD 4 0 = 0xFF ∧
    respWrongValue.getD 4 0 = 0x00 := by
  refine ⟨by decide, rfl, by decide, by decide, rfl⟩

/-- C5 amended: the write-coil echo verification compares exactly response
bytes 0-3 (address, function code, register high, register low) against
the transmitted request — the value bytes 4-5 are not compared.  For a
transport whose first exchange returns RS485_OK with an 8-byte CRC-valid
response, the call succeeds immediately iff those four bytes match. -/
theorem writeCoil_echo_four_bytes (channel state : Nat)
    (env : Nat → RS485_Status_t × List Nat)
    (_hlo : 1 ≤ channel) (hhi : channel ≤ 8)
    (hst : (env 0).1 = RS485_OK) (hlen : (env 0).2.length = 8)
    (hcrc : responseCrcOk8 (env 0).2 = true) :
    (Modbus_WriteCoil channel state env = ⟨MODBUS_OK, 1, 0⟩ ↔
      writeCoilEchoOk (writeCoilFrame channel state) (env 0).2 = true) ∧
    (writeCoilEchoOk (writeCoilFrame channel state) (env 0).2 = true ↔
      ((env 0).2.getD 0 0 = (writeCoilFrame channel state).getD 0 0 ∧
       (env 0).2.getD 1 0 = (writeCoilFrame channel state).getD 1 0 ∧
       (env 0).2.getD 2 0 = (writeCoilFrame channel state).getD 2 0 ∧
       (env 0).2.getD 3 0 = (writeCoilFrame channel state).getD 3 0)) := by
  have hch : ¬(channel < 1 ∨ MODBUS_RELAY_COUNT < channel) := by
    unfold MODBUS_RELAY_COUNT; omega
  have hw : Modbus_WriteCoil channel state env =
      writeCoilLoop (writeCoilFrame channel state) env 0 3 := by
    unfold Modbus_WriteCoil; rw [if_neg hch]; rfl
  constructor
  · constructor
    · intro h
      by_contra hecho
      have hecho2 : writeCoilEchoOk (writeCoilFrame channel state) (env 0).2 = false :=
        Bool.not_eq_true _ ▸ Bool.eq_false_iff.mpr hecho
      have hfail : writeCoilAttemptOk (writeCoilFrame channel state) (env 0) = false := by
        simp [writeCoilAttemptOk, hecho2]
      rw [hw, show (3 : Nat) = 2 + 1 from rfl, writeCoilLoop_succ,
        if_neg (by simp [hfail])] at h
      have h2 := writeCoilLoop_attempts_pos (writeCoilFrame channel state) env 2 1
        (by omega)
      rw [h] at h2
      exact absurd h2 (by simp)
    · intro hecho
      have hok : writeCoilAttemptOk (writeCoilFrame channel state) (env 0) = true := by
        simp [writeCoilAttemptOk, hst, hlen, hcrc, hecho]
        rfl
      rw [hw]
      exact writeCoilLoop_first_success (writeCoilFrame channel state) env 3 0 0
        (Nat.le_refl 0) (by omega) (fun j _ hj => absurd hj (Nat.not_lt_zero j)) hok
  · simp only [writeCoilEchoOk, Bool.and_eq_true, beq_iff_eq]
    tauto

set_option maxRecDepth 8192 in
theorem writeCoil_echo_four_bytes_witness :
    Modbus_WriteCoil 1 0 envEchoGood = ⟨MODBUS_OK, 1, 0⟩ := by
  have h := writeCoil_echo_four_bytes 1 0 envEchoGood (by omega) (by omega)
    rfl (by decide) (by decide)
  exact h.1.mpr (by decide)

/-- C6 counterexample: a byte arriving exactly 50 ms after the previous
one is accumulated rather than terminating the frame — the source breaks
only when strictly more than 50 ms of silence have elapsed at a failed
poll (`(HAL_GetTick() - lastByteTick) > 50`), so the claimed "gap at or
over 50 ms terminates" fails at gap = 50. -/
theorem receive_gap50_accumulated_counterexample :
    rs485AccumFrom [ (50, 0xAB)] 0 1 [ 0x55] = [ 0x55, 0xAB] ∧
    [ (0x55 : Nat), 0xAB] ≠ [ 0x55] := by
  constructor
  · rw [accum_accept 50 0xAB [] 1 [ 0x55]
      (by norm_num [RS485_RX_BUFFER_SIZE]) (by omega), accum_nil]
    rfl
  · simp

/-- C6 amended: after the first byte, a subsequent byte is accumulated
exactly when its gap since the previous byte is at most 60 ms (the 50 ms
idle check runs only after a failed 10 ms poll, so it first fires at 60 ms
of silence — in particular every gap under 50 ms is accumulated and a gap
of exactly 50 ms does not terminate); the first gap over 60 ms terminates
accumulation exactly at that point; accumulation also stops when the byte
count reaches the RS485_RX_BUFFER_SIZE (256) capacity; the accumulated
bytes are returned. -/
theorem receive_idle_framing :
    (∀ (g b : Nat) (rest : List (Nat × Nat)) (cnt : Nat) (acc : List Nat),
      cnt < RS485_RX_BUFFER_SIZE → g ≤ 60 →
      rs485AccumFrom ((g, b) :: rest) 0 cnt acc =
        rs485AccumFrom rest 0 (cnt + 1) (acc ++ [b])) ∧
    (∀ (g b : Nat) (rest : List (Nat × Nat)) (cnt : Nat) (acc : List Nat),
      cnt < RS485_RX_BUFFER_SIZE → 60 < g →
      rs485AccumFrom ((g, b) :: rest) 0 cnt acc = acc) ∧
    (∀ (g b : Nat) (rest : List (Nat × Nat)) (s cnt : Nat) (acc : List Nat),
      RS485_RX_BUFFER_SIZE ≤ cnt →
      rs485AccumFrom ((g, b) :: rest) s cnt acc = acc) ∧
    (∀ (b0 g b : Nat) (pre post : List (Nat × Nat)),
      (∀ x ∈ pre, x.1 ≤ 60) → 60 < g →
      1 + pre.length ≤ RS485_RX_BUFFER_SIZE →
      rs485AccumFrom (pre ++ (g, b) :: post) 0 1 [b0] =
        b0 :: pre.map Prod.snd) := by
  refine ⟨accum_accept, accum_reject, accum_capacity, ?_⟩
  intro b0 g b pre post hall hg hcap
  simpa using accum_stream g b post hg pre 1 [b0] hall hcap

theorem receive_idle_framing_witness :
    rs485AccumFrom [ (49, 2), (61, 3)] 0 1 [1] = [ 1, 2] := by
  have h := receive_idle_framing.2.2.2 1 61 3 [ (49, 2)] [] (by decide)
    (by omega) (by norm_num [RS485_RX_BUFFER_SIZE])
  simpa using h

/-- C9 (buffer overflow): the accumulation loop of `RS485_Receive` is
bounded only by `RS485_RX_BUFFER_SIZE = 256`, yet `Modbus_ReadCoils` and
`Modbus_WriteCoil` hand it their 8-byte `rxBuffer`; a burst of 9
back-to-back bytes is accumulated in full, so the loop stores a 9th byte —
index 8, outside the caller's 8-byte buffer (and with `rxLen = 9` the
subsequent CRC read `rxBuffer[rxLen-1]` is index 8, out of bounds too):
the claimed in-bounds property is violated. -/
theorem rx_buffer_overflow :
    (rs485AccumFrom (List.replicate 8 (0, 0xAA)) 0 1 [ 0x55]).length = 9 ∧
    modbusRxBufferSize < 9 ∧
    9 ≤ RS485_RX_BUFFER_SIZE := by
  refine ⟨?_, by norm_num [modbusRxBufferSize], by norm_num [RS485_RX_BUFFER_SIZE]⟩
  simp [accum_unfold, accum_nil, List.replicate, RS485_RX_BUFFER_SIZE]

/-- C10: `Modbus_ReadCoils` writes through its output pointer only on
success — for every transport behaviour, a return value other than
`MODBUS_OK` leaves the caller's `*relayStates` unchanged, and an `MODBUS_OK`
return sets it exactly once, to response byte 3 of the succeeding
attempt. -/
theorem readCoils_writes_only_on_success
    (env : Nat → RS485_Status_t × List Nat) (relay0 : Nat) :
    ((Modbus_ReadCoils env relay0).status ≠ MODBUS_OK →
      (Modbus_ReadCoils env relay0).relayStates = relay0) ∧
    ((Modbus_ReadCoils env relay0).status = MODBUS_OK →
      ∃ k, k < 3 ∧ readCoilsAttemptOk (env k) = true ∧
        (Modbus_ReadCoils env relay0).relayStates = (env k).2.getD 3 0) := by
  constructor
  · exact readCoilsLoop_relay_preserved env relay0 3 0
  · intro h
    obtain ⟨k, _, hk2, hk3, hk4⟩ := readCoilsLoop_ok_exists env relay0 3 0 h
    exact ⟨k, by omega, hk3, hk4⟩

theorem readCoils_writes_only_on_success_witness :
    (Modbus_ReadCoils envAllFail 7).relayStates = 7 :=
  (readCoils_writes_only_on_success envAllFail 7).1 (by decide)
